import Mathlib

/-!
Verification of the schema-export pipeline of `pydantic-settings-export`.

The development shallowly embeds the parts of the code base that the
checked properties are about:

* `pydantic_settings_export/generators/toml.py` — the TOML generator
  (mode filtering, comment/uncomment decision, section vs dotted-key
  rendering of nested settings);
* `pydantic_settings_export/rst2text.py` — the RST-stripping helpers;
* the intermediate model (`FieldInfoModel` / `SettingsInfoModel`), the
  dotenv generator, the export orchestrator, the value serializer and the
  type classifier, whose sources are not part of the checked tree and are
  therefore modelled from the specification (each such definition carries a
  `Modelled from the spec:` doc comment).

Machine strings are Lean `String`s; Python `None` defaults are `Option`.
-/

/-! ## Text helpers: a model of `textwrap.fill` -/

/-- Whitespace characters collapsed by `textwrap.fill`. -/
def isSpaceChar (c : Char) : Bool :=
  c = ' ' || c = '\n' || c = '\t' || c = '\r'

/-- Split a character stream into whitespace-separated words; `cur` is the
current word accumulated in reverse. -/
def splitWordsGo : List Char → List Char → List (List Char)
  | [], cur => if cur.isEmpty then [] else [cur.reverse]
  | c :: rest, cur =>
    if isSpaceChar c then
      if cur.isEmpty then splitWordsGo rest []
      else cur.reverse :: splitWordsGo rest []
    else splitWordsGo rest (c :: cur)

/-- Greedy line filling: pack the remaining words after a non-empty first
line, starting a new line when the width would be exceeded. -/
def wrapGo (width : Nat) : List (List Char) → List Char → List (List Char)
  | [], line => [line]
  | w :: rest, line =>
    if line.length + 1 + w.length ≤ width then wrapGo width rest (line ++ ' ' :: w)
    else line :: wrapGo width rest w

/-- Wrap a word list into lines of at most `width` characters (long words
are kept whole, matching `break_long_words=False`). -/
def wrapChars (width : Nat) (ws : List (List Char)) : List (List Char) :=
  match ws with
  | [] => []
  | w :: rest => wrapGo width rest w

/-- Join lines with a single newline character. -/
def joinLines : List (List Char) → List Char
  | [] => []
  | [l] => l
  | l :: rest => l ++ '\n' :: joinLines rest

/-- Character-level body of `textwrap.fill`. -/
def fillChars (width : Nat) (cs : List Char) : List Char :=
  joinLines (wrapChars width (splitWordsGo cs []))

/-- Model of Python `textwrap.fill(text, width, break_long_words=False,
break_on_hyphens=False)`: whitespace is collapsed, words are packed
greedily into lines joined by newlines. -/
def textwrap_fill (width : Nat) (s : String) : String :=
  String.mk (fillChars width s.data)

/-- Split a character stream at single newlines, keeping empty pieces. -/
def splitOnNewlineGo : List Char → List Char → List (List Char)
  | [], cur => [cur.reverse]
  | c :: rest, cur =>
    if c = '\n' then cur.reverse :: splitOnNewlineGo rest []
    else splitOnNewlineGo rest (c :: cur)

/-- Model of Python `str.split("\n")`: the pieces between newlines,
including empty ones. -/
def splitOnNewlines (s : String) : List String :=
  (splitOnNewlineGo s.data []).map String.mk

/-! ## The intermediate model

`FieldInfoModel` and `SettingsInfoModel` live in
`pydantic_settings_export/models.py`, which is not part of the checked
tree; the structures below are modelled from the specification's
FieldDescriptor / SettingsNode data model (§3) and carry exactly the
fields the embedded generators consult. -/

/-- Modelled from the spec: a FieldDescriptor (`FieldInfoModel` in
`models.py`) — a leaf configuration variable with its serialized default
(`none` when the field is required), aliases, type tags, description,
examples and deprecation flag. -/
structure FieldInfoModel where
  name : String
  types : List String
  default : Option String
  is_required : Bool
  aliases : List String
  description : Option String
  examples : List String
  deprecated : Bool
  deriving DecidableEq

/-- Modelled from the spec: `full_name` is `aliases[0]` when aliases are
present, else `name`. -/
def FieldInfoModel.full_name (f : FieldInfoModel) : String :=
  match f.aliases with
  | a :: _ => a
  | [] => f.name

/-- Modelled from the spec: the one-element list `[default]` when a
default exists, empty otherwise. -/
def defaultExamplesOf : Option String → List String
  | some d => [d]
  | none => []

/-- Modelled from the spec: `has_examples()` is true only when the
examples list differs from `[default]`. -/
def FieldInfoModel.has_examples (f : FieldInfoModel) : Bool :=
  if f.examples = defaultExamplesOf f.default then false else true

/-- Modelled from the spec: the examples list stored at extraction time —
when field metadata supplies no examples and a default exists, the
examples default to `[default]`. -/
def mkExamples (metaExamples : List String) (default : Option String) : List String :=
  if metaExamples = [] then defaultExamplesOf default else metaExamples

/-- Modelled from the spec: a SettingsNode (`SettingsInfoModel` in
`models.py`): display name, attribute name under which the node is nested
in its parent (empty for the root), cleaned docstring, own leaf fields,
and nested child settings. -/
inductive SettingsInfoModel where
  | mk : String → String → String → List FieldInfoModel → List SettingsInfoModel →
      SettingsInfoModel

/-- Display name of a settings node. -/
def SettingsInfoModel.name : SettingsInfoModel → String
  | .mk n _ _ _ _ => n

/-- Attribute name under which the node is nested in its parent. -/
def SettingsInfoModel.field_name : SettingsInfoModel → String
  | .mk _ fn _ _ _ => fn

/-- Cleaned docstring of a settings node. -/
def SettingsInfoModel.docs : SettingsInfoModel → String
  | .mk _ _ d _ _ => d

/-- Leaf fields belonging directly to the node. -/
def SettingsInfoModel.fields : SettingsInfoModel → List FieldInfoModel
  | .mk _ _ _ fs _ => fs

/-- Nested child settings of the node. -/
def SettingsInfoModel.child_settings : SettingsInfoModel → List SettingsInfoModel
  | .mk _ _ _ _ cs => cs

/-! ## The TOML generator (`generators/toml.py`) -/

/-- Export mode of the TOML generator (`TomlMode`). -/
inductive TomlMode where
  | all
  | only_optional
  | only_required
  deriving DecidableEq

/-- The `TOML_MODE_MAP` table: mode to `(is_optional, is_required)`
inclusion switches. -/
def TOML_MODE_MAP : TomlMode → Bool × Bool
  | .all => (true, true)
  | .only_optional => (true, false)
  | .only_required => (false, true)

/-- Configuration of the TOML generator (`TomlSettings`): the five
formatter hooks (`none` disables a hook), `comment_defaults`, the export
`mode` and the optional `section_depth`. The output-path and prefix
options play no role in the checked properties and are omitted. -/
structure TomlSettings where
  header_formatter : Option (String → String → String)
  type_formatter : Option (String → List String → Bool → Bool → String)
  description_formatter : Option (String → String)
  default_formatter : Option (String → String)
  examples_formatter : Option (List String → String)
  comment_defaults : Bool
  mode : TomlMode
  section_depth : Option Nat

/-- The `default_header_formatter` of `toml.py`: class name on the first
line, then the docstring wrapped at 80 columns, joined by newlines. -/
def default_header_formatter (name docstring : String) : String :=
  String.intercalate "\n"
    ((if name ≠ "" then [name] else []) ++
      (if docstring ≠ "" then [textwrap_fill 80 docstring] else []))

/-- The `default_type_formatter` of `toml.py`. -/
def default_type_formatter (key_name : String) (types : List String)
    (required deprecated : Bool) : String :=
  key_name ++ ": " ++ String.intercalate " | " types ++
    (if required then " (REQUIRED)" else "") ++
    (if deprecated then " (DEPRECATED)" else "")

/-- The `default_description_formatter` of `toml.py`: wrap at 80 columns. -/
def default_description_formatter (description : String) : String :=
  textwrap_fill 80 description

/-- The `default_default_formatter` of `toml.py`. -/
def default_default_formatter (default : String) : String :=
  "Default: " ++ default

/-- The `default_examples_formatter` of `toml.py`. -/
def default_examples_formatter (examples : List String) : String :=
  "Examples: " ++ String.intercalate ", " examples

/-- The default `TomlSettings`: all formatters enabled with their default
implementations, `comment_defaults=True`, `mode="all"`,
`section_depth=None`. -/
def defaultTomlSettings : TomlSettings where
  header_formatter := some default_header_formatter
  type_formatter := some default_type_formatter
  description_formatter := some default_description_formatter
  default_formatter := some default_default_formatter
  examples_formatter := some default_examples_formatter
  comment_defaults := true
  mode := .all
  section_depth := none

/-- `TomlGenerator._make_toml_key`: first alias if any, else the declared
name. -/
def make_toml_key (f : FieldInfoModel) : String :=
  match f.aliases with
  | a :: _ => a
  | [] => f.name

/-- `TomlGenerator._should_include_field`: look the mode up in
`TOML_MODE_MAP`; a required field is dropped when the mode excludes
required fields, a non-required field when the mode excludes optional
ones. -/
def should_include_field (cfg : TomlSettings) (f : FieldInfoModel) : Bool :=
  let p := TOML_MODE_MAP cfg.mode
  if f.is_required && !p.2 then false
  else if !f.is_required && !p.1 then false
  else true

/-- `TomlGenerator._should_comment_field`: a field is commented out when
its serialized default is `"null"`, when it is required, or when
`comment_defaults` is set. -/
def should_comment_field (cfg : TomlSettings) (f : FieldInfoModel) : Bool :=
  if f.default = some "null" then true
  else if f.is_required then true
  else cfg.comment_defaults

/-- One element of the rendered TOML document, in emission order:
comment lines, blank lines, `[section]` headers, active `key = value`
entries, bare commented keys (`# key =`) and commented
`# key = value` entries. -/
inductive TomlItem where
  | commentLine (text : String)
  | blankLine
  | tableHeader (path : List String)
  | activeEntry (key : String) (defaultStr : String)
  | bareKeyComment (key : String)
  | commentedEntry (key : String) (defaultStr : String)
  deriving DecidableEq

/-- `TomlGenerator._format_field_comment`: the comment lines preceding a
field's entry — type line, wrapped description, `Default:` line (only for
a non-required field with a truthy default) and `Examples:` line (only
when `has_examples()`), each skipped when its formatter is disabled. -/
def format_field_comment (cfg : TomlSettings) (f : FieldInfoModel)
    (key_name : Option String) : List String :=
  (match cfg.type_formatter with
    | some tf => [tf (key_name.getD f.name) f.types f.is_required f.deprecated]
    | none => []) ++
  (match cfg.description_formatter, f.description with
    | some df, some d => if d ≠ "" then splitOnNewlines (df d) else []
    | _, _ => []) ++
  (match cfg.default_formatter, f.default with
    | some dff, some d => if d ≠ "" && !f.is_required then [dff d] else []
    | _, _ => []) ++
  (match cfg.examples_formatter with
    | some ef => if f.has_examples then [ef f.examples] else []
    | none => [])

/-- Branch structure of `TomlGenerator._add_field_to_container` after the
comment lines: an uncommented entry when the field must not be commented,
a bare commented key when the field is required or its default is
`"null"`, and otherwise a commented `key = value` line carrying the
canonical serialized default. -/
def field_entry (cfg : TomlSettings) (f : FieldInfoModel) (full_key : String) : TomlItem :=
  if should_comment_field cfg f = false then
    .activeEntry full_key (f.default.getD "")
  else if f.is_required = true ∨ f.default = some "null" then
    .bareKeyComment full_key
  else
    .commentedEntry full_key (f.default.getD "")

/-- `TomlGenerator._add_field_to_container`: emit the field's comment
lines (using the dotted key as display name when a dotted `pre` is
given), then the entry itself, then a blank line. -/
def add_field_to_container (cfg : TomlSettings) (f : FieldInfoModel) (pre : String) :
    List TomlItem :=
  let field_key := make_toml_key f
  let full_key := if pre = "" then field_key else pre ++ field_key
  ((format_field_comment cfg f (if pre = "" then none else some full_key)).map
      TomlItem.commentLine) ++
    [field_entry cfg f full_key] ++ [.blankLine]

/-- `TomlGenerator._add_header_comments`: when the header formatter is
enabled and produces text, each produced line becomes a comment line,
followed by a blank line. -/
def add_header_comments (cfg : TomlSettings) (name docs : String) : List TomlItem :=
  match cfg.header_formatter with
  | none => []
  | some hf =>
    let formatted := hf name docs
    if formatted ≠ "" then (splitOnNewlines formatted).map TomlItem.commentLine ++ [.blankLine]
    else []

/-- `TomlGenerator._add_child_as_dotted_keys`: header comments for the
child, then the child's own fields (those passing the mode filter) with
the dotted key as key — the child's nested `child_settings` are not
visited by this method. -/
def add_child_as_dotted_keys (cfg : TomlSettings) (child : SettingsInfoModel)
    (dotted : String) : List TomlItem :=
  add_header_comments cfg child.name child.docs ++
    (child.fields.filter (should_include_field cfg)).flatMap
      (fun f => add_field_to_container cfg f dotted)

mutual

/-- `TomlGenerator._add_settings_to_container`: the node's own fields
(those passing the mode filter), then each child — as a nested section
while `current_depth + 1` is within `section_depth` (or always when
`section_depth` is `None`), else flattened via
`_add_child_as_dotted_keys` with the child's field name plus a dot as
key prefix string. -/
def add_settings_to_container (cfg : TomlSettings) (s : SettingsInfoModel)
    (current_depth : Nat) (section_path : List String) : List TomlItem :=
  match s with
  | .mk _ _ _ fs children =>
    (fs.filter (should_include_field cfg)).flatMap
        (fun f => add_field_to_container cfg f "") ++
      add_children cfg children current_depth section_path

/-- Loop body of `_add_settings_to_container` over `child_settings`; the
section branch inlines `TomlGenerator._add_child_as_section` (header
comments, the `[section]` marker, then the child's contents at the next
depth). -/
def add_children (cfg : TomlSettings) (cs : List SettingsInfoModel)
    (current_depth : Nat) (section_path : List String) : List TomlItem :=
  match cs with
  | [] => []
  | c :: rest =>
    let next_depth := current_depth + 1
    let child_path := section_path ++ [c.field_name]
    let use_section :=
      match cfg.section_depth with
      | none => true
      | some d => next_depth ≤ d
    (if use_section then
        add_header_comments cfg c.name c.docs ++
          [.tableHeader child_path, .blankLine] ++
          add_settings_to_container cfg c next_depth child_path
      else
        add_child_as_dotted_keys cfg c (c.field_name ++ ".")) ++
      add_children cfg rest current_depth section_path

end

/-- `TomlGenerator._add_child_as_section` as a standalone reading: header
comments, the section marker, then the child's contents. -/
def add_child_as_section (cfg : TomlSettings) (child : SettingsInfoModel)
    (next_depth : Nat) (child_path : List String) : List TomlItem :=
  add_header_comments cfg child.name child.docs ++
    [.tableHeader child_path, .blankLine] ++
    add_settings_to_container cfg child next_depth child_path

/-- Arguments passed to `json.loads` during one run of
`_add_field_to_container`, branch by branch: the uncommented branch and
the commented `key = value` branch parse `field.default`; the bare-key
branch parses nothing. -/
def json_loads_args (cfg : TomlSettings) (f : FieldInfoModel) : List (Option String) :=
  if should_comment_field cfg f = false then [f.default]
  else if f.is_required = true ∨ f.default = some "null" then []
  else [f.default]

/-- Keys of the field entries (active, bare commented, or commented
`key = value`) occurring in a rendered item list. -/
def renderedFieldKeys (items : List TomlItem) : List String :=
  items.filterMap (fun it =>
    match it with
    | .activeEntry k _ => some k
    | .bareKeyComment k => some k
    | .commentedEntry k _ => some k
    | _ => none)

/-! ## RST stripping (`rst2text.py`) -/

/-- The final substitution of `sanitize_rst_text`,
`re.sub(r"\\", "", text)`: delete every backslash character. -/
def removeBackslashes (s : String) : String :=
  String.mk (s.data.filter (fun c => c ≠ '\\'))

/-- `sanitize_rst_text`: the five inline-RST `re.sub` rewrites that
precede the final substitution are abstracted by `rw` (their exact output
is irrelevant to the checked property), after which the final
substitution deletes every remaining backslash. -/
def sanitize_rst_text (rw : String → String) (s : String) : String :=
  removeBackslashes (rw s)

/-- Split on runs of two or more newlines, the behaviour of
`re.split(r"\n\n+", text)`; `cur` is the current paragraph in reverse and
`pending` counts newlines not yet committed. -/
def splitParasGo : List Char → List Char → Nat → List (List Char)
  | [], cur, pending =>
    if pending ≥ 2 then [cur.reverse, []]
    else [(List.replicate pending '\n' ++ cur).reverse]
  | c :: rest, cur, pending =>
    if c = '\n' then splitParasGo rest cur (pending + 1)
    else if pending ≥ 2 then cur.reverse :: splitParasGo rest [c] 0
    else splitParasGo rest (c :: (List.replicate pending '\n' ++ cur)) 0

/-- Paragraphs of a text, split on blank lines as in `rst_to_text`. -/
def splitParas (cs : List Char) : List (List Char) :=
  splitParasGo cs [] 0

/-- Model of Python `str.splitlines()` for newline-separated text: no
lines for the empty text, and no trailing empty line after a final
newline. -/
def splitlinesChars (cs : List Char) : List (List Char) :=
  if cs = [] then []
  else
    let ps := splitOnNewlineGo cs []
    if ps.getLast? = some [] then ps.dropLast else ps

/-- The `is_code_block` helper of `rst_to_text`: every line is empty or
starts with four spaces. -/
def is_code_block (cs : List Char) : Bool :=
  (splitlinesChars cs).all (fun l => l.isEmpty || [' ', ' ', ' ', ' '].isPrefixOf l)

/-- The `is_list` helper of `rst_to_text`: every line starts with `-` or
two spaces. -/
def is_list (cs : List Char) : Bool :=
  (splitlinesChars cs).all (fun l => ['-'].isPrefixOf l || [' ', ' '].isPrefixOf l)

/-- Join paragraphs with a blank line, the `"\n\n".join` of
`rst_to_text`. -/
def joinParas : List (List Char) → List Char
  | [] => []
  | [p] => p
  | p :: rest => p ++ '\n' :: '\n' :: joinParas rest

/-- `rst_to_text`: sanitize, split into paragraphs, wrap each paragraph
at `line_length` unless it is a code block or a list, and join the
paragraphs back with blank lines. -/
def rst_to_text (rw : String → String) (s : String) (line_length : Nat) : String :=
  let t := sanitize_rst_text rw s
  let paragraphs := splitParas t.data
  let wrapped := paragraphs.map (fun p =>
    if !is_code_block p && !is_list p then fillChars line_length p else p)
  String.mk (joinParas wrapped)

/-! ## The value serializer (`value_to_jsonable` of `models.py`) -/

/-- Modelled from the spec: the runtime values the Type Classifier can
describe — strings, integers, booleans, `None`, path-like values,
secret-like values, containers, and unknown objects identified by their
textual form. -/
inductive PyValue where
  | str (s : String)
  | int (n : Int)
  | bool (b : Bool)
  | none
  | path (p : String)
  | secret (s : String)
  | list (xs : List PyValue)
  | dict (kvs : List (String × PyValue))
  | obj (s : String)

/-- JSON escaping of one character (quote and backslash). -/
def jsonEscapeChar (c : Char) : List Char :=
  if c = '"' then ['\\', '"']
  else if c = '\\' then ['\\', '\\']
  else [c]

/-- Quoted JSON string form of a text. -/
def jsonQuote (s : String) : String :=
  String.mk ('"' :: (s.data.flatMap jsonEscapeChar ++ ['"']))

mutual

/-- Modelled from the spec: `value_to_jsonable` of `models.py` — compact
single-line canonical serialization: strings and path-like values quoted,
secret-like values replaced by the fixed masked placeholder, `None` as
`null`, booleans lowercase, containers as compact JSON with no extra
whitespace, unknown objects as their quoted string form. Total by
construction: it never throws. -/
def value_to_jsonable : PyValue → String
  | .str s => jsonQuote s
  | .int n => toString n
  | .bool b => if b then "true" else "false"
  | .none => "null"
  | .path p => jsonQuote p
  | .secret _ => jsonQuote "**********"
  | .list xs => "[" ++ String.intercalate "," (jsonableList xs) ++ "]"
  | .dict kvs => "\x7b" ++ String.intercalate "," (jsonableDict kvs) ++ "\x7d"
  | .obj s => jsonQuote s

/-- Serialization of the elements of a list value. -/
def jsonableList : List PyValue → List String
  | [] => []
  | v :: rest => value_to_jsonable v :: jsonableList rest

/-- Serialization of the entries of a dict value. -/
def jsonableDict : List (String × PyValue) → List String
  | [] => []
  | (k, v) :: rest => (jsonQuote k ++ ":" ++ value_to_jsonable v) :: jsonableDict rest

end

/-! ## The type classifier (`get_type_by_annotation` of `models.py`) -/

/-- Modelled from the spec: a literal value occurring in a `Literal[...]`
annotation, serialized with strings quoted and others raw. -/
inductive LitVal where
  | s (v : String)
  | i (v : Int)
  deriving DecidableEq

/-- Serialized form of a literal value. -/
def serializeLit : LitVal → String
  | .s v => jsonQuote v
  | .i v => toString v

/-- Modelled from the spec: a type annotation — primitive types, `None`,
path-like classes, unions, literal value sets and unrecognized classes
kept by their bare class name. -/
inductive TypeAnnot where
  | str
  | int
  | bool
  | float
  | list
  | dict
  | noneType
  | path
  | union (ts : List TypeAnnot)
  | literal (vals : List LitVal)
  | other (className : String)

mutual

/-- Modelled from the spec: the raw type-tag stream of an annotation, in
declaration order — primitive types map to fixed tags, `None` contributes
`"null"`, a union flattens recursively, a literal contributes one
serialized tag per value, unrecognized classes contribute their bare
class name. -/
def rawTags : TypeAnnot → List String
  | .str => ["string"]
  | .int => ["integer"]
  | .bool => ["boolean"]
  | .float => ["number"]
  | .list => ["array"]
  | .dict => ["object"]
  | .noneType => ["null"]
  | .path => ["Path"]
  | .union ts => rawTagsList ts
  | .literal vs => vs.map serializeLit
  | .other n => [n]

/-- Concatenated raw tag streams of the members of a union. -/
def rawTagsList : List TypeAnnot → List String
  | [] => []
  | t :: ts => rawTags t ++ rawTagsList ts

end

/-- Remove duplicates keeping the first occurrence of each element. -/
def dedupFirst : List String → List String
  | [] => []
  | x :: xs => x :: (dedupFirst xs).filter (fun y => y ≠ x)

/-- Modelled from the spec: `get_type_by_annotation` of `models.py` —
the ordered list of type tags, duplicates removed in first-seen order. -/
def get_type_by_annotation (a : TypeAnnot) : List String :=
  dedupFirst (rawTags a)

/-! ## The dotenv generator (`generators/dotenv.py`) -/

/-- Modelled from the spec: a leaf field as the dotenv generator sees it —
the external environment-variable name, the declared serialized default
(`none` when required), and the serialized live-instance value (`none`
when rendering a class rather than an instance). -/
structure DotenvFieldModel where
  env_name : String
  default : Option String
  value : Option String
  deriving DecidableEq

/-- Modelled from the spec: the dotenv rendering of one field — `KEY=`
for a required field; a commented `# KEY=default` for an optional field;
and, when a live-instance value differs from the declared default, the
commented default with a trailing `# default` marker followed by the
uncommented active value, in that order. -/
def dotenv_field_lines (f : DotenvFieldModel) : List String :=
  match f.default with
  | Option.none => [f.env_name ++ "="]
  | some d =>
    match f.value with
    | some v =>
      if v = d then ["# " ++ f.env_name ++ "=" ++ d]
      else ["# " ++ f.env_name ++ "=" ++ d ++ "  # default", f.env_name ++ "=" ++ v]
    | Option.none => ["# " ++ f.env_name ++ "=" ++ d]

/-- Lines of one `split_by_group` group: the `### <name>` header, a blank
line, then the fields' lines. -/
def dotenvGroupLines (g : String × List DotenvFieldModel) : List String :=
  ["### " ++ g.1, ""] ++ g.2.flatMap dotenv_field_lines

/-- Join group line blocks with one blank line between consecutive
groups. -/
def joinGroupsWithBlank : List (List String) → List String
  | [] => []
  | [g] => g
  | g :: rest => g ++ [""] ++ joinGroupsWithBlank rest

/-- Modelled from the spec: the dotenv generator over the pre-order list
of settings groups. -/
def dotenv_generate (groups : List (String × List DotenvFieldModel)) : List String :=
  joinGroupsWithBlank (groups.map dotenvGroupLines)

/-! ## The export orchestrator (`exporter.py`) -/

instance : DecidableEq (Except String (List String)) := fun x y =>
  match x, y with
  | .ok a, .ok b =>
    if h : a = b then .isTrue (h ▸ rfl) else .isFalse (fun hh => h (Except.ok.inj hh))
  | .error a, .error b =>
    if h : a = b then .isTrue (h ▸ rfl) else .isFalse (fun hh => h (Except.error.inj hh))
  | .ok _, .error _ => .isFalse (fun hh => Except.noConfusion hh)
  | .error _, .ok _ => .isFalse (fun hh => Except.noConfusion hh)

/-- Modelled from the spec: the outcome of one generator during a batch
run — the generator's name together with either its produced file paths
or the error it raised. -/
structure GeneratorRun where
  name : String
  result : Except String (List String)
  deriving DecidableEq

/-- Modelled from the spec: `Exporter.run_all` — each generator runs in
turn; a failure is caught individually, turned into a non-fatal warning
naming the generator and the cause, and excluded from the aggregated
result paths, while every remaining generator still runs. Returns the
aggregated paths and the warnings. -/
def run_all : List GeneratorRun → List String × List String
  | [] => ([], [])
  | g :: rest =>
    let r := run_all rest
    match g.result with
    | .ok paths => (paths ++ r.1, r.2)
    | .error e => (r.1, ("Generator " ++ g.name ++ " failed: " ++ e) :: r.2)

/-! ## Concrete fixtures (mirroring the repository's test fixtures) -/

/-- The `field: str = Field(default="value", description="Field description")`
fixture of `test_toml.py`. -/
def exampleOptionalField : FieldInfoModel :=
  ⟨"field", ["string"], some "\"value\"", false, [], some "Field description",
    ["\"value\""], false⟩

/-- The `required: str = Field(description="Required field")` fixture of
`test_toml.py`. -/
def exampleRequiredField : FieldInfoModel :=
  ⟨"required", ["string"], none, true, [], some "Required field", [], false⟩

/-- The `nullable: str | None = None` fixture of `test_toml.py`. -/
def exampleNullField : FieldInfoModel :=
  ⟨"nullable", ["string", "NoneType"], some "null", false, [], none, ["null"], false⟩

/-- The `host: str = "localhost"` field of the `SMTP` fixture. -/
def hostFieldExample : FieldInfoModel :=
  ⟨"host", ["string"], some "\"localhost\"", false, [], none, ["\"localhost\""], false⟩

/-- The `name: str = "app"` field of the `Core` fixture. -/
def nameFieldExample : FieldInfoModel :=
  ⟨"name", ["string"], some "\"app\"", false, [], none, ["\"app\""], false⟩

/-- The `SMTP` settings class of `test_toml_generator_with_section_depth`. -/
def smtpExample : SettingsInfoModel := .mk "SMTP" "smtp" "" [hostFieldExample] []

/-- The `Core` settings class, containing the `smtp` child. -/
def coreExample : SettingsInfoModel := .mk "Core" "core" "" [nameFieldExample] [smtpExample]

/-- The `App` settings class, containing the `core` child. -/
def appExample : SettingsInfoModel := .mk "App" "" "" [] [coreExample]

/-- `TomlSettings(section_depth=0, comment_defaults=False)`: every nested
settings class is flattened to dotted keys. -/
def cfgSectionDepthZero : TomlSettings :=
  { defaultTomlSettings with section_depth := some 0, comment_defaults := false }

/-! ## C1: commenting decision of the TOML field entry -/

/-- C1: for every field rendered by the TOML generator, the entry is an
uncommented `key = value` line iff the field is not required, its
serialized default is not `"null"`, and `comment_defaults` is false; it
is a bare commented key (no `=` value) iff the field is required or its
default serializes to `"null"`; and it is a commented `key = value` line
carrying the canonical serialized default iff the field is optional with
a concrete non-null default and `comment_defaults` is true. -/
theorem toml_field_entry_commenting (cfg : TomlSettings) (f : FieldInfoModel)
    (full_key : String) :
    (field_entry cfg f full_key = TomlItem.activeEntry full_key (f.default.getD "") ↔
      (f.is_required = false ∧ f.default ≠ some "null" ∧ cfg.comment_defaults = false)) ∧
    (field_entry cfg f full_key = TomlItem.bareKeyComment full_key ↔
      (f.is_required = true ∨ f.default = some "null")) ∧
    (field_entry cfg f full_key = TomlItem.commentedEntry full_key (f.default.getD "") ↔
      (f.is_required = false ∧ f.default ≠ some "null" ∧ cfg.comment_defaults = true)) := by
  unfold field_entry should_comment_field
  by_cases h1 : f.default = some "null" <;> by_cases h2 : f.is_required = true <;>
    by_cases h3 : cfg.comment_defaults = true <;>
    simp [h1, h2, h3, Bool.not_eq_true] at *

/-- Witness for C1: the optional `field = "value"` fixture under the
default configuration (`comment_defaults=True`) renders as the commented
entry. -/
theorem toml_field_entry_commenting_witness :
    field_entry defaultTomlSettings exampleOptionalField "field" =
      TomlItem.commentedEntry "field" "\"value\"" :=
  ((toml_field_entry_commenting defaultTomlSettings exampleOptionalField "field").2.2).mpr
    (by decide)

/-! ## C3: mode filtering partitions the field set -/

/-- C3: the mode filter includes every field under `all`, exactly the
required fields under `only-required`, exactly the non-required fields
under `only-optional`; no field is included under both restricted modes,
and the fields rendered under `only-required` followed by those rendered
under `only-optional` are a permutation (by `full_name`) of those
rendered under `all`. -/
theorem toml_mode_filter_partition (cfgA cfgR cfgO : TomlSettings)
    (hA : cfgA.mode = TomlMode.all) (hR : cfgR.mode = TomlMode.only_required)
    (hO : cfgO.mode = TomlMode.only_optional) (fields : List FieldInfoModel) :
    (∀ f, should_include_field cfgA f = true) ∧
    (∀ f, should_include_field cfgR f = f.is_required) ∧
    (∀ f, should_include_field cfgO f = !f.is_required) ∧
    (∀ f, ¬(should_include_field cfgR f = true ∧ should_include_field cfgO f = true)) ∧
    List.Perm
      ((fields.filter (should_include_field cfgR)).map FieldInfoModel.full_name ++
        (fields.filter (should_include_field cfgO)).map FieldInfoModel.full_name)
      ((fields.filter (should_include_field cfgA)).map FieldInfoModel.full_name) := by
  have hA1 : ∀ f, should_include_field cfgA f = true := by
    intro f
    unfold should_include_field
    rw [hA]
    cases hf : f.is_required <;> simp [TOML_MODE_MAP, hf]
  have hR1 : ∀ f, should_include_field cfgR f = f.is_required := by
    intro f
    unfold should_include_field
    rw [hR]
    cases hf : f.is_required <;> simp [TOML_MODE_MAP, hf]
  have hO1 : ∀ f, should_include_field cfgO f = !f.is_required := by
    intro f
    unfold should_include_field
    rw [hO]
    cases hf : f.is_required <;> simp [TOML_MODE_MAP, hf]
  refine ⟨hA1, hR1, hO1, ?_, ?_⟩
  · intro f
    rw [hR1, hO1]
    cases hf : f.is_required <;> simp [hf]
  · rw [List.filter_eq_self.mpr (fun f _ => hA1 f),
      List.filter_congr (fun f _ => hR1 f),
      List.filter_congr (fun f _ => hO1 f)]
    have hperm :=
      (List.filter_append_perm (fun f : FieldInfoModel => f.is_required) fields).map
        FieldInfoModel.full_name
    rw [List.map_append] at hperm
    exact hperm

/-- Witness for C3: the required fixture is included under
`only-required`. -/
theorem toml_mode_filter_partition_witness :
    should_include_field { defaultTomlSettings with mode := TomlMode.only_required }
      exampleRequiredField = exampleRequiredField.is_required :=
  (toml_mode_filter_partition defaultTomlSettings
    { defaultTomlSettings with mode := TomlMode.only_required }
    { defaultTomlSettings with mode := TomlMode.only_optional }
    rfl rfl rfl []).2.1 exampleRequiredField

/-! ## C9: the json.loads call sites are guarded -/

/-- C9: under the FieldDescriptor invariant that a non-required field has
a present serialized default, every argument `_add_field_to_container`
passes to `json.loads` is a present default, distinct from `"null"`, on a
branch where the field is not required — so the unguarded cast to `str`
is safe. -/
theorem toml_json_loads_guarded (cfg : TomlSettings) (f : FieldInfoModel)
    (hinv : f.is_required = false → f.default.isSome) :
    ∀ d ∈ json_loads_args cfg f,
      f.is_required = false ∧ ∃ s, d = some s ∧ s ≠ "null" := by
  intro d hd
  unfold json_loads_args should_comment_field at hd
  by_cases h1 : f.default = some "null" <;> by_cases h2 : f.is_required = true <;>
    by_cases h3 : cfg.comment_defaults = true <;> simp [h1, h2, h3] at hd <;>
    subst hd
  all_goals {
    have hreq : f.is_required = false := by
      cases hb : f.is_required
      · rfl
      · exact absurd hb h2
    obtain ⟨s, hs⟩ := Option.isSome_iff_exists.mp (hinv hreq)
    refine ⟨hreq, s, hs, fun hcon => h1 ?_⟩
    rw [hs, hcon]
  }

/-- Witness for C9: the optional fixture under the default configuration
parses its own default, which is not `"null"`. -/
theorem toml_json_loads_guarded_witness :
    exampleOptionalField.is_required = false ∧
      ∃ s, (some "\"value\"" : Option String) = some s ∧ s ≠ "null" :=
  toml_json_loads_guarded defaultTomlSettings exampleOptionalField (by decide)
    (some "\"value\"") (by decide)

/-! ## C2: dotted-key flattening drops grandchildren -/

/-- C2: evaluating the generator at the `App → Core → SMTP` fixture of
`test_toml_generator_with_section_depth` with `section_depth=0` shows
that only `core.name` is rendered: `_add_child_as_dotted_keys` never
visits the flattened child's own `child_settings`, so the grandchild
field `smtp.host` is dropped instead of appearing as the dotted key
`core.smtp.host`. -/
theorem toml_dotted_keys_drop_grandchild :
    renderedFieldKeys (add_settings_to_container cfgSectionDepthZero appExample 0 []) =
      ["core.name"] := by
  decide

/-! ## C8: has_examples is false exactly on the default singleton -/

/-- C8: `has_examples()` returns false iff the examples list is exactly
the one-element list containing the serialized default, and when field
metadata supplies no examples and a default exists the stored examples
are `[default]`, making `has_examples()` false. -/
theorem field_has_examples_spec (f : FieldInfoModel) (d : String)
    (hd : f.default = some d) :
    (f.has_examples = false ↔ f.examples = [d]) ∧
    (f.examples = mkExamples [] f.default → f.has_examples = false) := by
  have hde : defaultExamplesOf f.default = [d] := by rw [hd]; rfl
  have hme : mkExamples [] f.default = [d] := by simp [mkExamples, hde]
  unfold FieldInfoModel.has_examples
  rw [hde]
  constructor
  · constructor
    · intro hfalse
      by_contra hne
      simp [hne] at hfalse
    · intro he
      simp [he]
  · intro he
    rw [hme] at he
    simp [he]

/-- Witness for C8: the fixture of `test_field_info_examples_same_as_default`
(default `"value"`, no metadata examples) has `has_examples() = False`. -/
theorem field_has_examples_spec_witness : exampleOptionalField.has_examples = false :=
  (field_has_examples_spec exampleOptionalField "\"value\"" rfl).1.mpr rfl

/-! ## C4: dotenv rendering of live-instance values -/

/-- C4: a field extracted from a live settings instance renders as two
lines — the commented default with a trailing `# default` marker followed
by the uncommented active value, in that order — exactly when the
instance value differs from the declared default; when they are equal it
renders the single default-style line, identical to the rendering for
the class. -/
theorem dotenv_instance_override (f : DotenvFieldModel) (d v : String)
    (hd : f.default = some d) (hv : f.value = some v) :
    (dotenv_field_lines f =
        ["# " ++ f.env_name ++ "=" ++ d ++ "  # default", f.env_name ++ "=" ++ v] ↔
      v ≠ d) ∧
    (v = d → dotenv_field_lines f = dotenv_field_lines { f with value := none }) := by
  by_cases hvd : v = d
  · subst hvd
    simp [dotenv_field_lines, hd, hv]
  · simp [dotenv_field_lines, hd, hv, hvd]

/-- Witness for C4: the `host` override of
`test_dotenv_instance_shows_default_commented_and_value_uncommented`
renders the two lines in the claimed order. -/
theorem dotenv_instance_override_witness :
    dotenv_field_lines ⟨"HOST", some "\"localhost\"", some "\"production.example.com\""⟩ =
      ["# HOST=\"localhost\"  # default", "HOST=\"production.example.com\""] :=
  (dotenv_instance_override
    ⟨"HOST", some "\"localhost\"", some "\"production.example.com\""⟩
    "\"localhost\"" "\"production.example.com\"" rfl rfl).1.mpr (by decide)

/-- Validation: the dotenv model reproduces the exact expected output of
`test_dotenv_nested_instance`. -/
theorem dotenv_generate_reproduces_nested_instance_test :
    dotenv_generate
      [("AppSettings", [⟨"DEBUG", some "false", some "true"⟩]),
        ("Database",
          [⟨"DATABASE_HOST", some "\"localhost\"", some "\"prod-db.example.com\""⟩,
            ⟨"DATABASE_PORT", some "5432", some "5433"⟩])] =
      ["### AppSettings", "", "# DEBUG=false  # default", "DEBUG=true", "",
        "### Database", "", "# DATABASE_HOST=\"localhost\"  # default",
        "DATABASE_HOST=\"prod-db.example.com\"", "# DATABASE_PORT=5432  # default",
        "DATABASE_PORT=5433"] := by
  decide

/-! ## C5: per-generator failure tolerance of the orchestrator -/

/-- Warning produced for a failed generator run, `none` for a successful
one. -/
def warnOf (g : GeneratorRun) : Option String :=
  match g.result with
  | .error e => some ("Generator " ++ g.name ++ " failed: " ++ e)
  | .ok _ => none

/-- Paths of the orchestrator are exactly the successful generators'
paths, in order. -/
theorem run_all_paths_eq (gens : List GeneratorRun) :
    (run_all gens).1 = (gens.filterMap (fun g => g.result.toOption)).flatten := by
  induction gens with
  | nil => simp [run_all]
  | cons g rest ih =>
    cases hg : g.result with
    | ok paths => simp [run_all, hg, ih, Except.toOption]
    | error e => simp [run_all, hg, ih, Except.toOption]

/-- Warnings of the orchestrator are exactly one warning per failed
generator, in order. -/
theorem run_all_warnings_eq (gens : List GeneratorRun) :
    (run_all gens).2 = gens.filterMap warnOf := by
  induction gens with
  | nil => simp [run_all]
  | cons g rest ih =>
    cases hg : g.result with
    | ok paths => simp [run_all, hg, ih, warnOf]
    | error e => simp [run_all, hg, ih, warnOf]

/-- C5: when a generator fails during a batch run, the orchestrator
surfaces a warning naming it, excludes it from the result paths (the
paths are exactly the concatenation of the successful generators'
paths), and still runs every remaining generator, so a working
generator's paths appear in the result even when another generator
failed. -/
theorem exporter_run_all_spec (gens : List GeneratorRun) :
    (run_all gens).1 = (gens.filterMap (fun g => g.result.toOption)).flatten ∧
    (run_all gens).2 = gens.filterMap warnOf ∧
    (∀ g ∈ gens, ∀ e, g.result = Except.error e →
      ("Generator " ++ g.name ++ " failed: " ++ e) ∈ (run_all gens).2) ∧
    (∀ g ∈ gens, ∀ ps, g.result = Except.ok ps → ∀ p ∈ ps, p ∈ (run_all gens).1) := by
  refine ⟨run_all_paths_eq gens, run_all_warnings_eq gens, ?_, ?_⟩
  · intro g hg e hge
    rw [run_all_warnings_eq]
    exact List.mem_filterMap.mpr ⟨g, hg, by simp [warnOf, hge]⟩
  · intro g hg ps hps p hp
    rw [run_all_paths_eq]
    exact List.mem_flatten.mpr
      ⟨ps, List.mem_filterMap.mpr ⟨g, hg, by simp [hps, Except.toOption]⟩, hp⟩

/-- Witness for C5: with a failing generator first, the working
generator's output path still appears in the orchestrator's result. -/
theorem exporter_run_all_spec_witness :
    "output.txt" ∈
      (run_all [⟨"bad", Except.error "Generator failed"⟩,
        ⟨"good", Except.ok ["output.txt"]⟩]).1 :=
  (exporter_run_all_spec
    [⟨"bad", Except.error "Generator failed"⟩, ⟨"good", Except.ok ["output.txt"]⟩]).2.2.2
    ⟨"good", Except.ok ["output.txt"]⟩ (by decide) ["output.txt"] rfl "output.txt" (by decide)

/-! ## C6: the value serializer masks secrets and never throws -/

/-- C6: the serializer maps every secret-like value to the same fixed
masked placeholder (so no information about the secret reaches the
output), serializes `None` as `null` and booleans lowercase, falls back
to the quoted string form for unknown objects, and — whenever the secret
contains any character other than `*` and `"` — the secret's content is
not a substring of the masked output. The serializer is a total function
over every value the type classifier can describe, so it never throws. -/
theorem value_serializer_secret_masked :
    (∀ s t : String, value_to_jsonable (.secret s) = value_to_jsonable (.secret t)) ∧
    (∀ s : String, value_to_jsonable (.secret s) = "\"**********\"") ∧
    value_to_jsonable .none = "null" ∧
    value_to_jsonable (.bool true) = "true" ∧
    value_to_jsonable (.bool false) = "false" ∧
    (∀ r : String, value_to_jsonable (.obj r) = jsonQuote r) ∧
    (∀ s : String, (∃ c ∈ s.data, c ≠ '*' ∧ c ≠ '"') →
      ¬ List.IsInfix s.data (value_to_jsonable (.secret s)).data) := by
  have hsec : ∀ s : String, value_to_jsonable (.secret s) = "\"**********\"" := by
    intro s
    have h1 : value_to_jsonable (.secret s) = jsonQuote "**********" := rfl
    rw [h1]
    decide
  refine ⟨fun s t => by rw [hsec s, hsec t], hsec, by decide, by decide, by decide,
    fun r => rfl, ?_⟩
  intro s hex hinf
  obtain ⟨c, hc, hstar, hquote⟩ := hex
  rw [hsec s] at hinf
  have hsub : c ∈ ("\"**********\"").data := hinf.sublist.subset hc
  have hall : ∀ x ∈ ("\"**********\"").data, x = '*' ∨ x = '"' := by decide
  rcases hall c hsub with h | h
  · exact hstar h
  · exact hquote h

/-- Witness for C6: the content of the secret `"secret"` is not a
substring of the serializer's output for it. -/
theorem value_serializer_secret_masked_witness :
    ¬ List.IsInfix ("secret").data (value_to_jsonable (.secret "secret")).data :=
  value_serializer_secret_masked.2.2.2.2.2.2 "secret" ⟨'s', by decide, by decide, by decide⟩

/-- Validation: the serializer reproduces every row of
`test_value_to_jsonable`. -/
theorem value_to_jsonable_matches_tests :
    value_to_jsonable (.str "hello") = "\"hello\"" ∧
    value_to_jsonable (.int 42) = "42" ∧
    value_to_jsonable (.bool true) = "true" ∧
    value_to_jsonable (.list [.int 1, .int 2, .int 3]) = "[1,2,3]" ∧
    value_to_jsonable (.dict [("key", .str "value")]) = "\x7b\"key\":\"value\"\x7d" ∧
    value_to_jsonable .none = "null" ∧
    value_to_jsonable (.path "/tmp/file.txt") = "\"/tmp/file.txt\"" ∧
    value_to_jsonable (.secret "abc") = "\"**********\"" := by
  decide

/-! ## C7: the type classifier deduplicates in first-seen order -/

/-- First-occurrence deduplication yields a duplicate-free list. -/
theorem dedupFirst_nodup (l : List String) : (dedupFirst l).Nodup := by
  induction l with
  | nil => simp [dedupFirst]
  | cons x xs ih =>
    simp only [dedupFirst]
    refine List.nodup_cons.mpr ⟨?_, ih.filter _⟩
    intro hx
    have := (List.mem_filter.mp hx).2
    simp at this

/-- First-occurrence deduplication keeps the order of the input: the
result is a subsequence. -/
theorem dedupFirst_sublist (l : List String) : List.Sublist (dedupFirst l) l := by
  induction l with
  | nil => simp [dedupFirst]
  | cons x xs ih =>
    simp only [dedupFirst]
    exact List.Sublist.cons₂ x ((List.filter_sublist _).trans ih)

/-- First-occurrence deduplication keeps exactly the elements of the
input. -/
theorem mem_dedupFirst (a : String) (l : List String) : a ∈ dedupFirst l ↔ a ∈ l := by
  induction l with
  | nil => simp [dedupFirst]
  | cons x xs ih =>
    simp only [dedupFirst, List.mem_cons, List.mem_filter]
    by_cases hax : a = x
    · simp [hax]
    · simp [hax, ih]

/-- Deduplication does nothing on a duplicate-free list. -/
theorem dedupFirst_eq_self_of_nodup (l : List String) (h : l.Nodup) : dedupFirst l = l := by
  induction l with
  | nil => rfl
  | cons x xs ih =>
    obtain ⟨hx, hxs⟩ := List.nodup_cons.mp h
    simp only [dedupFirst, ih hxs]
    congr 1
    apply List.filter_eq_self.mpr
    intro y hy
    exact decide_eq_true (fun hyx => hx (hyx ▸ hy))

/-- The raw tag stream of a union is the concatenation of its members'
streams. -/
theorem rawTagsList_eq_flatMap (ts : List TypeAnnot) :
    rawTagsList ts = ts.flatMap rawTags := by
  induction ts with
  | nil => simp [rawTagsList]
  | cons t ts ih => simp [rawTagsList, ih]

/-- C7: the classifier returns the raw declaration-order tag stream with
duplicates removed in first-seen order (duplicate-free, a subsequence of
the raw stream, with exactly the raw stream's elements); a union
flattens recursively; an optional type contributes a trailing `"null"`
tag; classification is idempotent — reclassifying a flattened union
yields the same list, and the output is stable under another
deduplication pass. -/
theorem type_classifier_spec (a : TypeAnnot) (ts : List TypeAnnot) (t : TypeAnnot) :
    ( get_type_by_annotation a).Nodup ∧
    List.Sublist ( get_type_by_annotation a) (rawTags a) ∧
    (∀ tag, tag ∈ get_type_by_annotation a ↔ tag ∈ rawTags a) ∧
    rawTagsList ts = ts.flatMap rawTags ∧
    rawTags (.union [t, .noneType]) = rawTags t ++ ["null"] ∧
    get_type_by_annotation (.union [.union ts]) = get_type_by_annotation (.union ts) ∧
    dedupFirst ( get_type_by_annotation a) = get_type_by_annotation a := by
  refine ⟨dedupFirst_nodup _, dedupFirst_sublist _, fun tag => mem_dedupFirst tag _,
    rawTagsList_eq_flatMap ts, ?_, ?_, dedupFirst_eq_self_of_nodup _ (dedupFirst_nodup _)⟩
  · show rawTagsList [t, .noneType] = rawTags t ++ ["null"]
    simp [rawTagsList, rawTags]
  · unfold get_type_by_annotation
    congr 1
    show rawTagsList [.union ts] = rawTags (.union ts)
    simp [rawTagsList]

/-- Witness for C7: the `str | None` annotation's classified tags are
exactly the elements of its raw tag stream. -/
theorem type_classifier_spec_witness :
    "null" ∈ get_type_by_annotation (.union [.str, .noneType]) ↔
      "null" ∈ rawTags (.union [.str, .noneType]) :=
  (type_classifier_spec (.union [.str, .noneType]) [] .str).2.2.1 "null"

/-- Validation: the classifier reproduces the union, literal and Path
rows of `test_get_type_by_annotation_union` and friends. -/
theorem get_type_by_annotation_matches_tests :
    get_type_by_annotation (.union [.str, .path, .int, .float, .noneType]) =
      ["string", "Path", "integer", "number", "null"] ∧
    get_type_by_annotation (.union [.str, .str]) = ["string"] ∧
    get_type_by_annotation (.union [.str, .noneType]) = ["string", "null"] ∧
    get_type_by_annotation (.literal [.s "a", .s "b", .i 1]) = ["\"a\"", "\"b\"", "1"] ∧
    get_type_by_annotation .path = ["Path"] := by
  decide

/-! ## C10: the sanitizer output is backslash-free -/

/-- Word splitting introduces no backslash. -/
theorem no_bs_splitWordsGo : ∀ (rest cur : List Char), '\\' ∉ rest → '\\' ∉ cur →
    ∀ w ∈ splitWordsGo rest cur, '\\' ∉ w := by
  intro rest
  induction rest with
  | nil =>
    intro cur h1 h2 w hw
    simp only [splitWordsGo] at hw
    split at hw
    · simp at hw
    · simp at hw
      subst hw
      intro hx
      exact h2 (List.mem_reverse.mp hx)
  | cons c rest' ih =>
    intro cur h1 h2 w hw
    have hne : c ≠ '\\' := by
      intro he
      subst he
      exact h1 (List.mem_cons_self _ _)
    have hrest : '\\' ∉ rest' := fun hx => h1 (List.mem_cons_of_mem c hx)
    simp only [splitWordsGo] at hw
    split at hw
    · split at hw
      · exact ih [] hrest (by simp) w hw
      · rcases List.mem_cons.mp hw with h | h
        · subst h
          intro hx
          exact h2 (List.mem_reverse.mp hx)
        · exact ih [] hrest (by simp) w h
    · refine ih (c :: cur) hrest ?_ w hw
      intro hx
      rcases List.mem_cons.mp hx with h | h
      · exact hne h.symm
      · exact h2 h

/-- Greedy wrapping introduces no backslash beyond a space separator. -/
theorem no_bs_wrapGo (width : Nat) : ∀ (ws : List (List Char)) (line : List Char),
    (∀ w ∈ ws, '\\' ∉ w) → '\\' ∉ line → ∀ l ∈ wrapGo width ws line, '\\' ∉ l := by
  intro ws
  induction ws with
  | nil =>
    intro line hws hline l hl
    simp only [wrapGo] at hl
    simp at hl
    subst hl
    exact hline
  | cons w rest ih =>
    intro line hws hline l hl
    simp only [wrapGo] at hl
    split at hl
    · refine ih (line ++ ' ' :: w) (fun x hx => hws x (List.mem_cons_of_mem _ hx)) ?_ l hl
      intro hx
      rcases List.mem_append.mp hx with h | h
      · exact hline h
      · rcases List.mem_cons.mp h with h2 | h2
        · exact absurd h2 (by decide)
        · exact hws w (List.mem_cons_self _ _) h2
    · rcases List.mem_cons.mp hl with h | h
      · subst h
        exact hline
      · exact ih w (fun x hx => hws x (List.mem_cons_of_mem _ hx))
          (hws w (List.mem_cons_self _ _)) l h

/-- Joining lines with newlines introduces no backslash. -/
theorem no_bs_joinLines : ∀ (ls : List (List Char)),
    (∀ l ∈ ls, '\\' ∉ l) → '\\' ∉ joinLines ls := by
  intro ls
  induction ls with
  | nil => simp [joinLines]
  | cons l rest ih =>
    cases rest with
    | nil =>
      intro h
      simpa [joinLines] using h l (by simp)
    | cons l2 rest2 =>
      intro h
      simp only [joinLines]
      intro hx
      rcases List.mem_append.mp hx with h1 | h2
      · exact h l (by simp) h1
      · rcases List.mem_cons.mp h2 with h3 | h4
        · exact absurd h3 (by decide)
        · exact ih (fun x hx2 => h x (List.mem_cons_of_mem _ hx2)) h4

/-- Filling a backslash-free paragraph yields a backslash-free text. -/
theorem no_bs_fillChars (width : Nat) (cs : List Char) (h : '\\' ∉ cs) :
    '\\' ∉ fillChars width cs := by
  unfold fillChars
  apply no_bs_joinLines
  intro l hl
  have hwords := no_bs_splitWordsGo cs [] h (by simp)
  cases hws : splitWordsGo cs [] with
  | nil =>
    rw [hws] at hl
    simp [wrapChars] at hl
  | cons w rest =>
    rw [hws] at hl
    rw [hws] at hwords
    simp only [wrapChars] at hl
    exact no_bs_wrapGo width rest w (fun x hx => hwords x (List.mem_cons_of_mem _ hx))
      (hwords w (List.mem_cons_self _ _)) l hl

/-- Paragraph splitting introduces no backslash. -/
theorem no_bs_splitParasGo : ∀ (rest cur : List Char) (pending : Nat),
    '\\' ∉ rest → '\\' ∉ cur → ∀ p ∈ splitParasGo rest cur pending, '\\' ∉ p := by
  intro rest
  induction rest with
  | nil =>
    intro cur pending h1 h2 p hp
    simp only [splitParasGo] at hp
    split at hp
    · rcases List.mem_cons.mp hp with h | h
      · subst h
        intro hx
        exact h2 (List.mem_reverse.mp hx)
      · simp at h
        subst h
        simp
    · simp at hp
      subst hp
      intro hx
      rcases List.mem_append.mp hx with h | h
      · exact h2 (List.mem_reverse.mp h)
      · exact absurd (List.eq_of_mem_replicate h) (by decide)
  | cons c rest' ih =>
    intro cur pending h1 h2 p hp
    have hne : c ≠ '\\' := by
      intro he
      subst he
      exact h1 (List.mem_cons_self _ _)
    have hrest : '\\' ∉ rest' := fun hx => h1 (List.mem_cons_of_mem c hx)
    simp only [splitParasGo] at hp
    split at hp
    · exact ih cur (pending + 1) hrest h2 p hp
    · split at hp
      · rcases List.mem_cons.mp hp with h | h
        · subst h
          intro hx
          exact h2 (List.mem_reverse.mp hx)
        · refine ih [c] 0 hrest ?_ p h
          intro hx
          simp at hx
          exact hne hx.symm
      · refine ih (c :: (List.replicate pending '\n' ++ cur)) 0 hrest ?_ p hp
        intro hx
        rcases List.mem_cons.mp hx with h | h
        · exact hne h.symm
        · rcases List.mem_append.mp h with h3 | h3
          · exact absurd (List.eq_of_mem_replicate h3) (by decide)
          · exact h2 h3

/-- Joining paragraphs with blank lines introduces no backslash. -/
theorem no_bs_joinParas : ∀ (ps : List (List Char)),
    (∀ p ∈ ps, '\\' ∉ p) → '\\' ∉ joinParas ps := by
  intro ps
  induction ps with
  | nil => simp [joinParas]
  | cons p rest ih =>
    cases rest with
    | nil =>
      intro h
      simpa [joinParas] using h p (by simp)
    | cons p2 rest2 =>
      intro h
      simp only [joinParas]
      intro hx
      rcases List.mem_append.mp hx with h1 | h2
      · exact h p (by simp) h1
      · rcases List.mem_cons.mp h2 with h3 | h4
        · exact absurd h3 (by decide)
        · rcases List.mem_cons.mp h4 with h5 | h6
          · exact absurd h5 (by decide)
          · exact ih (fun x hx2 => h x (List.mem_cons_of_mem _ hx2)) h6

/-- C10: whatever the five inline-RST rewrites produce, the final
substitution of `sanitize_rst_text` deletes every remaining backslash,
so its output contains no backslash character; and `rst_to_text`'s
wrapped and re-joined output is backslash-free as well. -/
theorem rst_backslash_free (rw : String → String) (s : String) (line_length : Nat) :
    '\\' ∉ (sanitize_rst_text rw s).data ∧ '\\' ∉ (rst_to_text rw s line_length).data := by
  have hsan : '\\' ∉ (sanitize_rst_text rw s).data := by
    unfold sanitize_rst_text removeBackslashes
    intro hx
    simp at hx
  refine ⟨hsan, ?_⟩
  unfold rst_to_text
  have hparas := no_bs_splitParasGo (sanitize_rst_text rw s).data [] 0 hsan (by simp)
  show '\\' ∉ (String.mk _).data
  apply no_bs_joinParas
  intro p hp
  obtain ⟨q, hq, hpq⟩ := List.mem_map.mp hp
  subst hpq
  split
  · exact no_bs_fillChars line_length q (hparas q hq)
  · exact hparas q hq

/-- Validation: with the identity in place of the inline rewrites, the
sanitizer deletes the backslashes of `"a\\b\\"`. -/
theorem sanitize_rst_text_example :
    sanitize_rst_text (fun x => x) "a\\b\\" = "ab" := by
  decide
